import Mathlib

/-!
Verification of the AHP student-profiler core: knowledge base, transcript
extraction and the AHP inference engine.  Python floats are modelled as
rationals (`ℚ`), Python dicts as association lists with unique keys
inserted in first-write order, and Python sets as lists used only for
membership.  String operations (`upper`, `strip`) are modelled over the
ASCII range, which covers all course codes and grade tokens involved.
-/

namespace Profiler

/-- Python `str.upper()` (ASCII range). -/
def pyUpper (s : String) : String := String.mk (s.data.map Char.toUpper)

/-- Whitespace characters stripped by Python `str.strip()` (ASCII range). -/
def pyIsSpace (c : Char) : Bool :=
  c = ' ' || c = '\t' || c = '\n' || c = '\r' || c = '\x0b' || c = '\x0c'

/-- Python `str.strip()` (ASCII whitespace). -/
def pyStrip (s : String) : String :=
  String.mk (((s.data.dropWhile pyIsSpace).reverse.dropWhile pyIsSpace).reverse)

/-- The four specialization tracks, in the fixed enumeration order of
`ProfileType` in `schemas.py` (also the iteration and tie-break order). -/
inductive ProfileType where
  | AI
  | DMS
  | PSD
  | INFRA
deriving DecidableEq, Repr

/-- Position of a profile in the fixed enumeration order AI, DMS, PSD, INFRA. -/
def profileIdx : ProfileType → Nat
  | .AI => 0
  | .DMS => 1
  | .PSD => 2
  | .INFRA => 3

/-- `ProfileType.value`: the string value of the enum member. -/
def profileValue : ProfileType → String
  | .AI => "AI"
  | .DMS => "DMS"
  | .PSD => "PSD"
  | .INFRA => "INFRA"

/-- `ProfileType(profile_str)`: string-to-enum conversion, `none` models the
`ValueError` raised for an unrecognized profile name. -/
def parseProfileType : String → Option ProfileType
  | "AI" => some .AI
  | "DMS" => some .DMS
  | "PSD" => some .PSD
  | "INFRA" => some .INFRA
  | _ => none

/-- The AHP criteria classes (`CriteriaType` in `schemas.py`). -/
inductive CriteriaType where
  | FOUNDATION
  | COMPETENCY
  | DENSITY
deriving DecidableEq, Repr

/-- `ParsedCourse` from `schemas.py`: one evidence record extracted from the
transcript.  Pydantic constrains `sks` to 1..6 and `grade_value` to [0,4];
those bounds are checked where the record is constructed. -/
structure ParsedCourse where
  code : String
  name : String
  sks : Int
  grade_letter : String
  grade_value : ℚ
deriving DecidableEq, Repr

/-- `StudentTranscript` from `schemas.py`. -/
structure StudentTranscript where
  student_id : Option String
  student_name : Option String
  courses : List ParsedCourse
  gpa_raw : Option ℚ
deriving DecidableEq, Repr

/-- `CourseRelevance` from `schemas.py`: a weighted link between a course and
a (profile, criteria class) pair. -/
structure CourseRelevance where
  profile : ProfileType
  relevance_weight : ℚ
  type : CriteriaType
deriving DecidableEq, Repr

/-- `AHPConfig` from `schemas.py`: the three criterion weights. -/
structure AHPConfig where
  w_foundation : ℚ
  w_competency : ℚ
  w_density : ℚ
deriving DecidableEq, Repr

/-- `math.isclose(a, b, rel_tol=1e-5)` with the default `abs_tol=0.0`:
`abs(a-b) <= max(rel_tol * max(abs(a), abs(b)), abs_tol)`. -/
def mathIsClose (a b : ℚ) : Prop :=
  |a - b| ≤ max ((1 / 100000) * max |a| |b|) 0

instance (a b : ℚ) : Decidable (mathIsClose a b) := by
  unfold mathIsClose
  infer_instance

/-- The `check_weights_sum_to_one` model validator of `AHPConfig`:
raises (models as `Except.error`) when the weight sum is not close to 1.0.
This is the only check the validator performs. -/
def checkWeightsSumToOne (c : AHPConfig) : Except String AHPConfig :=
  if mathIsClose (c.w_foundation + c.w_competency + c.w_density) 1 then
    Except.ok c
  else
    Except.error "AHP Weights must sum to 1.0."

/-- `Except.isOk`, specialized to the validator result. -/
def isOkE : Except String AHPConfig → Bool
  | .ok _ => true
  | .error _ => false

/-- `PrerequisiteType` from `schemas.py`. -/
inductive PrerequisiteType where
  | COURSE_GRADE
  | SKS_COUNT
deriving DecidableEq, Repr

/-- `PrerequisiteRule` from `schemas.py`. -/
structure PrerequisiteRule where
  target_course_code : String
  req_type : PrerequisiteType
  required_course_code : Option String
  min_grade_value : Option ℚ
  min_sks : Option Int
deriving DecidableEq, Repr

/-- Modelled from the spec: the `CourseMetadata` schema class is imported by
`knowledge_base.py` and the admin endpoints but its definition is not in the
sources; per the spec a CourseRecord has a code, a name and creditUnits, a
positive integer 1–6. -/
structure CourseMetadata where
  code : String
  name : String
  sks : Int
deriving DecidableEq, Repr

/-- Modelled from the spec: validation of a CourseRecord (`creditUnits`
a positive integer, 1–6); construction fails (pydantic exception) otherwise. -/
def mkCourseMetadata (code name : String) (sks : Int) : Option CourseMetadata :=
  if 1 ≤ sks ∧ sks ≤ 6 then some ⟨code, name, sks⟩ else none

/-- `AHPScoreset` from `schemas.py`. -/
structure AHPScoreset where
  foundation_score : ℚ
  competency_score : ℚ
  density_score : ℚ
  final_ahp_score : ℚ
deriving DecidableEq, Repr

/-- `ProfileRecommendation` from `schemas.py`. -/
structure ProfileRecommendation where
  profile : ProfileType
  rank : Nat
  score : ℚ
  details : AHPScoreset
  explanation : String
deriving DecidableEq, Repr

/-- The `student_metadata` dict of `AnalysisResponse`. -/
structure StudentMetadata where
  name : Option String
  id : Option String
  gpa : Option ℚ
deriving DecidableEq, Repr

/-- `AnalysisResponse` from `schemas.py`. -/
structure AnalysisResponse where
  status : String
  student_metadata : StudentMetadata
  total_credits : Int
  recommendations : List ProfileRecommendation
deriving DecidableEq, Repr

/-- Python dict lookup `d.get(k)` over an association list with unique keys. -/
def alookup {α : Type} (k : String) : List (String × α) → Option α
  | [] => none
  | (k', v) :: rest => if k' = k then some v else alookup k rest

/-- Python dict assignment `d[k] = v`: replaces in place if the key exists
(keeping its position), otherwise appends (insertion order). -/
def dinsert {α : Type} (k : String) (v : α) : List (String × α) → List (String × α)
  | [] => [(k, v)]
  | (k', v') :: rest =>
    if k' = k then (k', v) :: rest else (k', v') :: dinsert k v rest

/-- Python `d[k].append(v)` for a dict of lists: appends `v` to the list bound
to key `k` (the key is assumed present). -/
def dappend {α : Type} (k : String) (v : α) : List (String × List α) → List (String × List α)
  | [] => []
  | (k', vs) :: rest =>
    if k' = k then (k', vs ++ [v]) :: rest else (k', vs) :: dappend k v rest

/-- The `KnowledgeBase` instance state: its three indices, as built by
`_build_metadata_map`, `_build_relevance_map`, `_build_prerequisite_map`. -/
structure KnowledgeBase where
  metadataMap : List (String × CourseMetadata)
  relevanceMap : List (String × List CourseRelevance)
  prereqMap : List (String × List PrerequisiteRule)
deriving DecidableEq, Repr

/-- `get_course_metadata(code)`: lookup under `code.upper().strip()`
normalization; absence returns `none`, never an error. -/
def getCourseMetadata (kb : KnowledgeBase) (code : String) : Option CourseMetadata :=
  alookup (pyStrip (pyUpper code)) kb.metadataMap

/-- `get_relevance_rules(code)`: lookup under `code.upper().strip()`
normalization, defaulting to the empty rule list. -/
def getRelevanceRules (kb : KnowledgeBase) (code : String) : List CourseRelevance :=
  (alookup (pyStrip (pyUpper code)) kb.relevanceMap).getD []

/-- `get_prerequisites(code)`. -/
def getPrerequisites (kb : KnowledgeBase) (code : String) : List PrerequisiteRule :=
  (alookup (pyStrip (pyUpper code)) kb.prereqMap).getD []

/-- `get_all_mapping_keys()`: the course codes carrying relevance rules. -/
def getAllMappingKeys (kb : KnowledgeBase) : List String :=
  kb.relevanceMap.map Prod.fst

/-- Well-formedness of the metadata index, true of every index the builder
produces: each stored record is retrievable through the accessor by its own
code (keys are normalized and each record's `code` equals its key). -/
def metadataWF (kb : KnowledgeBase) : Prop :=
  ∀ e ∈ kb.metadataMap, getCourseMetadata kb e.2.code = some e.2

/-- Well-formedness of the relevance index, true of every index the builder
produces: keys are distinct (a Python dict) and each entry's rule list is
what the accessor returns for its key. -/
def relevanceWF (kb : KnowledgeBase) : Prop :=
  (kb.relevanceMap.map Prod.fst).Nodup ∧
    ∀ e ∈ kb.relevanceMap, getRelevanceRules kb e.1 = e.2

instance (kb : KnowledgeBase) : Decidable (metadataWF kb) := by
  unfold metadataWF
  infer_instance

instance (kb : KnowledgeBase) : Decidable (relevanceWF kb) := by
  unfold relevanceWF
  infer_instance

/-- `GRADE_MAP` of `parser_service.py`: the fixed nine-point grade scale. -/
def GRADE_MAP : List (String × ℚ) :=
  [("A", 4), ("A-", 37/10),
   ("B+", 33/10), ("B", 3), ("B-", 27/10),
   ("C+", 23/10), ("C", 2),
   ("D", 1), ("E", 0)]

/-- `GRADE_MAP.get(grade_letter, 0.0)`: letter-to-numeric grade conversion,
defaulting to 0.0 for any unrecognized token (never an error). -/
def gradeMap (s : String) : ℚ := (alookup s GRADE_MAP).getD 0

/-- Python `\w` word character (ASCII range). -/
def isWordChar (c : Char) : Bool :=
  ('a' ≤ c && c ≤ 'z') || ('A' ≤ c && c ≤ 'Z') || ('0' ≤ c && c ≤ '9') || c = '_'

/-- `CODE_PATTERN` matching at the head of the character list:
`(TI\d{4}|MH\d{4})` with `re.IGNORECASE`; returns the six matched characters. -/
def codeAt : List Char → Option (List Char)
  | a :: b :: d1 :: d2 :: d3 :: d4 :: _ =>
    if ((a.toUpper = 'T' ∧ b.toUpper = 'I') ∨ (a.toUpper = 'M' ∧ b.toUpper = 'H'))
        ∧ d1.isDigit ∧ d2.isDigit ∧ d3.isDigit ∧ d4.isDigit then
      some [a, b, d1, d2, d3, d4]
    else none
  | _ => none

/-- `CODE_PATTERN.search(line)`: the leftmost match of the course-code
pattern, scanning position by position. -/
def searchCode : List Char → Option (List Char)
  | [] => none
  | a :: rest =>
    match codeAt (a :: rest) with
    | some cs => some cs
    | none => searchCode rest

/-- Word-boundary test before a word character at the current position:
true at the start of the string or after a non-word character. -/
def boundaryBefore : Option Char → Bool
  | none => true
  | some p => !isWordChar p

/-- `GRADE_PATTERN.findall(line)` for `\b([A-E][+-]?)\b` (case sensitive):
non-overlapping left-to-right matches.  The trailing `\b` makes the pattern
backtrack to the bare letter when `+`/`-` is not followed by a word
character, exactly as the regex engine does.  `prev` is the character just
before the current position. -/
def gradeFindAux : Option Char → List Char → List String
  | _, [] => []
  | prev, c :: rest =>
    if boundaryBefore prev ∧ 'A' ≤ c ∧ c ≤ 'E' then
      match rest with
      | [] => [String.mk [c]]
      | d :: rest2 =>
        if d = '+' ∨ d = '-' then
          if (rest2.head?.map isWordChar).getD false then
            String.mk [c, d] :: gradeFindAux (some d) rest2
          else
            String.mk [c] :: gradeFindAux (some c) (d :: rest2)
        else if !isWordChar d then
          String.mk [c] :: gradeFindAux (some c) (d :: rest2)
        else
          gradeFindAux (some c) (d :: rest2)
    else
      gradeFindAux (some c) rest

/-- `GRADE_PATTERN.findall(line)` over a whole line. -/
def gradeFindall (line : String) : List String :=
  gradeFindAux none line.data

/-- Step 1 of `_scan_lines_for_courses` on one line:
`code_match.group(1).upper().strip()`, or `none` when no code is found. -/
def lineCode (line : String) : Option String :=
  (searchCode line.data).map (fun cs => pyStrip (pyUpper (String.mk cs)))

/-- Step 2 of `_scan_lines_for_courses` on one line:
`grade_matches[-1].strip().upper()`, or `none` when no grade token is found. -/
def lineGrade (line : String) : Option String :=
  (gradeFindall line).getLast?.map (fun g => pyUpper (pyStrip g))

/-- `ParsedCourse` construction from a metadata record and a grade letter,
including the pydantic bounds (`sks` 1..6, `grade_value` 0..4); `none`
models the caught construction exception (the line is then skipped). -/
def buildParsedCourse (meta : CourseMetadata) (gl : String) : Option ParsedCourse :=
  if 1 ≤ meta.sks ∧ meta.sks ≤ 6 ∧ 0 ≤ gradeMap gl ∧ gradeMap gl ≤ 4 then
    some ⟨meta.code, meta.name, meta.sks, gl, gradeMap gl⟩
  else none

/-- The full per-line decision of `_scan_lines_for_courses`, without the
duplicate check: the evidence record a line yields when its code is not yet
seen (`none` when the line is skipped for any other reason). -/
def lineEvidence (kb : KnowledgeBase) (line : String) : Option ParsedCourse :=
  match lineCode line with
  | none => none
  | some raw =>
    match lineGrade line with
    | none => none
    | some gl =>
      match getCourseMetadata kb raw with
      | none => none
      | some meta => buildParsedCourse meta gl

/-- The loop of `_scan_lines_for_courses` (`parser_service.py`, FastAPI
backend): per line, find a code, find the rightmost grade token, skip
already-seen codes, skip codes unknown to the knowledge base, then construct
the record and mark the code seen. -/
def scanAux (kb : KnowledgeBase) : List String → List String → List ParsedCourse
  | [], _ => []
  | line :: rest, seen =>
    match lineCode line with
    | none => scanAux kb rest seen
    | some raw =>
      match lineGrade line with
      | none => scanAux kb rest seen
      | some gl =>
        if raw ∈ seen then scanAux kb rest seen
        else
          match getCourseMetadata kb raw with
          | none => scanAux kb rest seen
          | some meta =>
            match buildParsedCourse meta gl with
            | some course => course :: scanAux kb rest (raw :: seen)
            | none => scanAux kb rest seen

/-- `_scan_lines_for_courses(lines)` with an initially empty seen set. -/
def scanLines (kb : KnowledgeBase) (lines : List String) : List ParsedCourse :=
  scanAux kb lines []

/-- Spec-side dedup: keep, for each key, only its first occurrence. -/
def dedupFirst {α : Type} : List (String × α) → List (String × α)
  | [] => []
  | e :: rest => e :: dedupFirst (rest.filter (fun e2 => e2.1 ≠ e.1))
termination_by l => l.length
decreasing_by
  simp only [gt_iff_lt]
  exact Nat.lt_succ_of_le (List.length_filter_le _ _)

/-- Spec-side candidate list: each line mapped to the raw course code it
bears together with the evidence record it would yield. -/
def candidates (kb : KnowledgeBase) (lines : List String) : List (String × ParsedCourse) :=
  lines.filterMap (fun l =>
    match lineCode l, lineEvidence kb l with
    | some c, some r => some (c, r)
    | _, _ => none)

/-- The seen-set filter on candidates: keeps those whose raw code is not in
the seen set. -/
def notSeen (seen : List String) (e : String × ParsedCourse) : Bool :=
  decide (e.1 ∉ seen)

/-- Python `float(s)` restricted to the strings the GPA pattern `[\d.]+` can
produce: digits with at most one decimal point and at least one digit;
`none` models the `ValueError` branch. -/
def parsePyFloat (s : String) : Option ℚ :=
  let parts := s.data.splitOnP (fun c => c = '.')
  let digitsOk := s.data.all (fun c => c.isDigit || c = '.')
  let natOf : List Char → Nat := fun cs => cs.foldl (fun n c => 10 * n + (c.toNat - '0'.toNat)) 0
  match parts with
  | [intPart] =>
    if digitsOk ∧ intPart ≠ [] then some ((natOf intPart : ℚ)) else none
  | [intPart, fracPart] =>
    if digitsOk ∧ (intPart ≠ [] ∨ fracPart ≠ []) then
      some ((natOf intPart : ℚ) + (natOf fracPart : ℚ) / ((10 : ℚ) ^ fracPart.length))
    else none
  | _ => none

/-- The assembly step of `parse_pdf` (`parser_service.py`, FastAPI backend).
The collaborator boundary supplies the text lines (pdfplumber) and the three
header-pattern search results (`_extract_metadata` for student id, name and
GPA), each `none` when the pattern finds nothing.  The GPA field starts at
0.0 and is replaced only when the matched string parses as a float. -/
def parsePdfAssemble (kb : KnowledgeBase) (lines : List String)
    (studentId studentName gpaStr : Option String) : StudentTranscript :=
  let gpaVal : ℚ :=
    match gpaStr with
    | some s => if s ≠ "" then (parsePyFloat s).getD 0 else 0
    | none => 0
  { student_id := studentId
    student_name := studentName
    courses := scanLines kb lines
    gpa_raw := some gpaVal }

/-- Python `int(s)` for the digit strings `\d{1,2}` the streamlit course
regex captures as the SKS column; `none` models `ValueError`. -/
def parseNatDigits (s : String) : Option Nat :=
  if s.data ≠ [] ∧ s.data.all Char.isDigit then
    some (s.data.foldl (fun n c => 10 * n + (c.toNat - '0'.toNat)) 0)
  else none

/-- The loop body of `_extract_courses` (`parser_service.py`, streamlit
variant) for one regex match `(code, sks, grade)`.  Unlike the line
scanner, an unknown code is not skipped: the record is built with the
placeholder name and the document-sourced SKS. -/
def extractCoursesStep (kb : KnowledgeBase) (m : String × String × String) :
    Option ParsedCourse :=
  let raw := pyUpper (pyStrip m.1)
  let meta := getCourseMetadata kb raw
  let courseName := match meta with
    | some md => md.name
    | none => "Unknown Course (YAML Missing)"
  let sksVal : Option Int := match meta with
    | some md => some md.sks
    | none =>
      match parseNatDigits m.2.1 with
      | some n => some (Int.ofNat n)
      | none => none
  match sksVal with
  | none => none
  | some sks =>
    let gv := gradeMap m.2.2
    if 1 ≤ sks ∧ sks ≤ 6 ∧ 0 ≤ gv ∧ gv ≤ 4 then
      some ⟨raw, courseName, sks, m.2.2, gv⟩
    else none

/-- `_extract_courses` (streamlit variant) over the list of regex matches
`COURSE_REGEX.findall(text)`, with first-occurrence-wins de-duplication. -/
def extractCoursesAux (kb : KnowledgeBase) :
    List (String × String × String) → List String → List ParsedCourse
  | [], _ => []
  | m :: rest, seen =>
    let raw := pyUpper (pyStrip m.1)
    if raw ∈ seen then extractCoursesAux kb rest seen
    else
      match extractCoursesStep kb m with
      | some course => course :: extractCoursesAux kb rest (raw :: seen)
      | none => extractCoursesAux kb rest seen

/-- `_extract_courses` (streamlit variant) with an initially empty seen set. -/
def extractCourses (kb : KnowledgeBase) (ms : List (String × String × String)) :
    List ParsedCourse :=
  extractCoursesAux kb ms []

/-- The student-grade index of `analyze_transcript`:
`{c.code.upper(): c.grade_value for c in transcript.courses}` (a dict
comprehension: later duplicates overwrite earlier values in place). -/
def studentGrades (courses : List ParsedCourse) : List (String × ℚ) :=
  courses.foldl (fun d c => dinsert (pyUpper c.code) c.grade_value d) []

/-- The match test `r.profile == profile and r.type == c_type` used by
`next((r for r in rules if ...), None)`. -/
def ruleMatches (profile : ProfileType) (ctype : CriteriaType) (r : CourseRelevance) : Bool :=
  r.profile = profile ∧ r.type = ctype

/-- `_calculate_weighted_quality` (`ahp_service.py`, streamlit variant, same
accumulation as the FastAPI `_calculate_quality_score`): scan every course
carrying a relevance rule for (profile, criteria class); for each one the
student took, add `(grade/4) * weight` to the numerator and `weight` to the
denominator; return their ratio, or 0.0 when the denominator is zero. -/
def calcWeightedQuality (kb : KnowledgeBase) (profile : ProfileType)
    (ctype : CriteriaType) (grades : List (String × ℚ)) : ℚ :=
  let acc := (getAllMappingKeys kb).foldl (fun (acc : ℚ × ℚ) code =>
    match (getRelevanceRules kb code).find? (ruleMatches profile ctype) with
    | none => acc
    | some rule =>
      match alookup code grades with
      | none => acc
      | some gradeVal =>
        (acc.1 + (gradeVal / 4) * rule.relevance_weight, acc.2 + rule.relevance_weight))
    (0, 0)
  if acc.2 = 0 then 0 else acc.1 / acc.2

/-- `_calculate_density` (`ahp_service.py`, streamlit variant — the
saturation-capped design the spec adopts as canonical): count available and
taken relevant courses; FOUNDATION uses the plain ratio, COMPETENCY is
capped at the saturation threshold of 4 electives.  `densityStep` is the
loop body: a course carrying a matching rule bumps the available count, and
the taken count as well when the student took it. -/
def densityStep (kb : KnowledgeBase) (profile : ProfileType) (ctype : CriteriaType)
    (grades : List (String × ℚ)) (counts : Nat × Nat) (code : String) : Nat × Nat :=
  match (getRelevanceRules kb code).find? (ruleMatches profile ctype) with
  | none => counts
  | some _ =>
    (counts.1 + 1, if (alookup code grades).isSome then counts.2 + 1 else counts.2)

/-- The tail of `_calculate_density` after its counting loop: zero available
courses give 0.0, FOUNDATION uses the plain ratio, COMPETENCY the
saturation cap `min(taken/4, 1.0)`. -/
def calcDensity (kb : KnowledgeBase) (profile : ProfileType)
    (ctype : CriteriaType) (grades : List (String × ℚ)) : ℚ :=
  let counts := (getAllMappingKeys kb).foldl (densityStep kb profile ctype grades) (0, 0)
  if counts.1 = 0 then 0
  else if ctype = CriteriaType.FOUNDATION then (counts.2 : ℚ) / (counts.1 : ℚ)
  else min ((counts.2 : ℚ) / 4) 1

/-- Spec-side count: the number of courses in the relevance index carrying a
rule for (profile, criteria class).  With distinct index keys this is the
count of distinct relevant courses. -/
def relevantCount (kb : KnowledgeBase) (profile : ProfileType) (ctype : CriteriaType) : Nat :=
  (kb.relevanceMap.filter (fun e => (e.2.find? (ruleMatches profile ctype)).isSome)).length

/-- Spec-side count: the number of courses in the relevance index carrying a
rule for (profile, criteria class) that the student took. -/
def relevantTakenCount (kb : KnowledgeBase) (profile : ProfileType)
    (ctype : CriteriaType) (grades : List (String × ℚ)) : Nat :=
  (kb.relevanceMap.filter (fun e =>
    (e.2.find? (ruleMatches profile ctype)).isSome && (alookup e.1 grades).isSome)).length

/-- `_generate_explanation` (streamlit variant): the ordered threshold bands
with the catch-all default. -/
def generateExplanation (profile : ProfileType) (f c d : ℚ) : String :=
  let HIGH : ℚ := 3/4
  let MID : ℚ := 1/2
  let pName := profileValue profile
  if c > HIGH ∧ d = 1 then
    "Excellent Candidate. High grades in " ++ pName ++ " electives and strong interest shown."
  else if c > HIGH ∧ d < MID then
    "Strong Potential. Good grades in the few " ++ pName ++ " courses taken, but low exposure."
  else if f > HIGH ∧ c < MID then
    "Solid Foundation. Good performance in basic courses, but struggling with advanced "
      ++ pName ++ " topics."
  else if d > 8/10 ∧ c < MID then
    "High Interest, Low Performance. Has taken many " ++ pName
      ++ " courses but grades are below average."
  else if f < MID ∧ c < MID then
    "Weak Match. Current academic history suggests difficulties with " ++ pName ++ " concepts."
  else
    "Moderate Match. Steady performance in " ++ pName ++ " related subjects."

/-- Round-half-even on a rational, as Python `round` does at a digit
position: down below one half, up above one half, to the even integer at
exactly one half. -/
def rndHalfEven (q : ℚ) : ℤ :=
  if q - (⌊q⌋ : ℚ) < 1/2 then ⌊q⌋
  else if 1/2 < q - (⌊q⌋ : ℚ) then ⌊q⌋ + 1
  else if ⌊q⌋ % 2 = 0 then ⌊q⌋ else ⌊q⌋ + 1

/-- Python `round(x, 4)`: rounding to 4 decimal places, half to even. -/
def round4 (q : ℚ) : ℚ := ((rndHalfEven (q * 10000) : ℚ)) / 10000

/-- The synthesis line of `analyze_transcript` (streamlit variant):
`finalScore = foundationQuality*wF + competencyQuality*wC +
competencyDensity*wD`; foundation density does not enter. -/
def finalScoreFor (kb : KnowledgeBase) (grades : List (String × ℚ))
    (config : AHPConfig) (profile : ProfileType) : ℚ :=
  calcWeightedQuality kb profile CriteriaType.FOUNDATION grades * config.w_foundation
    + calcWeightedQuality kb profile CriteriaType.COMPETENCY grades * config.w_competency
    + calcDensity kb profile CriteriaType.COMPETENCY grades * config.w_density

/-- The per-profile body of the loop in `analyze_transcript` (streamlit
variant): sub-scores, synthesis, explanation, and the recommendation record
with all numeric fields rounded to 4 decimal places (rank filled in later;
foundation density is computed but used only for the explanation display,
never in the formula). -/
def mkRecommendation (kb : KnowledgeBase) (grades : List (String × ℚ))
    (config : AHPConfig) (profile : ProfileType) : ProfileRecommendation :=
  let foundationScore := calcWeightedQuality kb profile CriteriaType.FOUNDATION grades
  let competencyScore := calcWeightedQuality kb profile CriteriaType.COMPETENCY grades
  let competencyDensity := calcDensity kb profile CriteriaType.COMPETENCY grades
  let finalScore := finalScoreFor kb grades config profile
  { profile := profile
    rank := 0
    score := round4 finalScore
    details :=
      { foundation_score := round4 foundationScore
        competency_score := round4 competencyScore
        density_score := round4 competencyDensity
        final_ahp_score := round4 finalScore }
    explanation := generateExplanation profile foundationScore competencyScore competencyDensity }

/-- The fixed profile iteration order of `for profile in ProfileType`. -/
def profiles : List ProfileType := [.AI, .DMS, .PSD, .INFRA]

/-- One insertion step of a stable descending sort by `.score`: the new
element goes before the first element whose score it reaches, so elements
with equal scores keep their original relative order — the behavior of
Python `list.sort(key=..., reverse=True)`, which is stable. -/
def insertDesc (x : ProfileRecommendation) :
    List ProfileRecommendation → List ProfileRecommendation
  | [] => [x]
  | y :: ys => if y.score ≤ x.score then x :: y :: ys else y :: insertDesc x ys

/-- Stable descending sort by `.score`, modelling
`recommendations.sort(key=lambda x: x.score, reverse=True)`. -/
def sortDesc : List ProfileRecommendation → List ProfileRecommendation
  | [] => []
  | x :: xs => insertDesc x (sortDesc xs)

/-- `for i, rec in enumerate(recommendations): rec.rank = i + 1`. -/
def assignRanks : Nat → List ProfileRecommendation → List ProfileRecommendation
  | _, [] => []
  | n, r :: rest => { r with rank := n } :: assignRanks (n + 1) rest

/-- `analyze_transcript` (streamlit variant): index the student grades,
build the four profile recommendations in enumeration order, sort them by
(rounded) score descending, assign 1-based ranks, and assemble the
response. -/
def analyzeTranscript (kb : KnowledgeBase) (transcript : StudentTranscript)
    (config : AHPConfig) : AnalysisResponse :=
  let grades := studentGrades transcript.courses
  let recommendations := profiles.map (mkRecommendation kb grades config)
  let ranked := assignRanks 1 (sortDesc recommendations)
  { status := "success"
    student_metadata :=
      { name := transcript.student_name
        id := transcript.student_id
        gpa := transcript.gpa_raw }
    total_credits := (transcript.courses.map (fun c => c.sks)).sum
    recommendations := ranked }

/-- One raw entry of `courses.yaml`: a mapping read with `entry.get`, each
field possibly absent. -/
structure RawCourseEntry where
  code : Option String
  name : Option String
  sks : Option Int
deriving DecidableEq, Repr

/-- A raw prerequisite requirement item: a small mapping, either
`{"SKS": n}` or `{courseCode: minGrade}` (possibly several keys). -/
abbrev RawReqItem : Type := List (String × ℚ)

/-- The raw value under one target course in `prerequisites.yaml`: a single
requirement mapping or a sequence of them. -/
inductive RawReqVal where
  | single (item : RawReqItem)
  | many (items : List RawReqItem)
deriving Repr

/-- The three raw YAML sources as loaded by `_load_yaml` (a missing or
unreadable file degrades to the empty value). -/
structure RawSources where
  courses : List RawCourseEntry
  relevance : List (String × List (String × List (String × ℚ)))
  prereqs : List (String × RawReqVal)

/-- `_build_metadata_map`: index `courses.yaml` by normalized course code;
entries with a falsy code are dropped, malformed entries (per the
spec-modelled CourseRecord validation) are skipped individually. -/
def buildMetadataMap (raw : List RawCourseEntry) : List (String × CourseMetadata) :=
  raw.foldl (fun mapping entry =>
    let code := pyUpper (pyStrip (entry.code.getD ""))
    let courseName := pyStrip (entry.name.getD "Unknown Course")
    let sks := entry.sks.getD 0
    if code ≠ "" then
      match mkCourseMetadata code courseName sks with
      | some meta => dinsert code meta mapping
      | none => mapping
    else mapping) []

/-- The section iteration order of `_build_relevance_map` (`section_map`
literal: FOUNDATION first, then COMPETENCY). -/
def sectionOrder : List (String × CriteriaType) :=
  [("FOUNDATION", CriteriaType.FOUNDATION), ("COMPETENCY", CriteriaType.COMPETENCY)]

/-- The inner profile loop of `_build_relevance_map`: each
profile-name → weight pair becomes a rule when the profile name is
recognized and the weight passes the `CourseRelevance` bounds; otherwise it
is skipped with a warning. -/
def addProfileRules (code : String) (ctype : CriteriaType)
    (profilesDict : List (String × ℚ))
    (mapping : List (String × List CourseRelevance)) : List (String × List CourseRelevance) :=
  profilesDict.foldl (fun mapping pw =>
    match parseProfileType pw.1 with
    | none => mapping
    | some p =>
      if (0 : ℚ) ≤ pw.2 ∧ pw.2 ≤ (1 : ℚ) then
        dappend code ⟨p, pw.2, ctype⟩ mapping
      else mapping) mapping

/-- `_build_relevance_map`: for each criteria section present in the raw
source, register each course (initializing an empty rule list on first
sight) and append its recognized profile rules. -/
def buildRelevanceMap (raw : List (String × List (String × List (String × ℚ)))) :
    List (String × List CourseRelevance) :=
  sectionOrder.foldl (fun mapping sec =>
    match alookup sec.1 raw with
    | none => mapping
    | some sectionData =>
      sectionData.foldl (fun mapping entry =>
        let code := pyStrip (pyUpper entry.1)
        let mapping := if (alookup code mapping).isSome then mapping else mapping ++ [(code, [])]
        if entry.2 = [] then mapping
        else addProfileRules code sec.2 entry.2 mapping) mapping) []

/-- Python `int()` on a rational: truncation toward zero. -/
def pyIntOfRat (q : ℚ) : Int := if q < 0 then -⌊-q⌋ else ⌊q⌋

/-- The per-item step of `_build_prerequisite_map`: an item with the
reserved `"SKS"` marker key becomes a credit-count rule, any other item
contributes one course-grade rule per key. -/
def addReqItem (target : String) (item : RawReqItem)
    (rules : List (String × List PrerequisiteRule)) : List (String × List PrerequisiteRule) :=
  if (alookup "SKS" item).isSome then
    dappend target
      { target_course_code := target
        req_type := PrerequisiteType.SKS_COUNT
        required_course_code := none
        min_grade_value := none
        min_sks := some (pyIntOfRat ((alookup "SKS" item).getD 0)) } rules
  else
    item.foldl (fun rules kv =>
      dappend target
        { target_course_code := target
          req_type := PrerequisiteType.COURSE_GRADE
          required_course_code := some (pyStrip (pyUpper kv.1))
          min_grade_value := some kv.2
          min_sks := none } rules) rules

/-- `_build_prerequisite_map`: normalize each target's value to a sequence
of requirement items and classify each item. -/
def buildPrerequisiteMap (raw : List (String × RawReqVal)) :
    List (String × List PrerequisiteRule) :=
  raw.foldl (fun rules entry =>
    let target := pyStrip (pyUpper entry.1)
    let rules := if (alookup target rules).isSome then rules else rules ++ [(target, [])]
    let reqList := match entry.2 with
      | RawReqVal.single item => [item]
      | RawReqVal.many items => items
    reqList.foldl (fun rules item => addReqItem target item rules) rules) []

/-- `KnowledgeBase.__init__` applied to already-loaded raw sources: build
the three indices. -/
def buildKnowledgeBase (raw : RawSources) : KnowledgeBase :=
  { metadataMap := buildMetadataMap raw.courses
    relevanceMap := buildRelevanceMap raw.relevance
    prereqMap := buildPrerequisiteMap raw.prereqs }

/-- Modelled from the spec: the `reload` method invoked by the admin
`/reload` endpoint is not among the sources; per the spec it re-reads the
sources, rebuilds the whole index set and atomically replaces the previous
one, which it discards. -/
def reloadKB (_previous : KnowledgeBase) (raw : RawSources) : KnowledgeBase :=
  buildKnowledgeBase raw

/-- A knowledge base with empty indices. -/
def kbEmptyKB : KnowledgeBase := ⟨[], [], []⟩

/-- Scenario A knowledge base: `TI6043` carries the only AI/COMPETENCY rule,
with weight 1.0. -/
def kbScenario : KnowledgeBase :=
  { metadataMap := [("TI6043", ⟨"TI6043", "Machine Learning", 3⟩)]
    relevanceMap := [("TI6043", [⟨.AI, 1, .COMPETENCY⟩])]
    prereqMap := [] }

/-- Scenario A transcript: a single evidence record for `TI6043` with
numeric grade 4.0. -/
def tScenario : StudentTranscript :=
  { student_id := none
    student_name := none
    courses := [⟨"TI6043", "Machine Learning", 3, "A", 4⟩]
    gpa_raw := none }

/-- Scenario A weights `{F: 0.2, C: 0.5, D: 0.3}`. -/
def cfgScenario : AHPConfig := ⟨2/10, 5/10, 3/10⟩

/-- A default recommendation record, used only to extract list heads. -/
def recDefault : ProfileRecommendation := ⟨.AI, 0, 0, ⟨0, 0, 0, 0⟩, ""⟩

/-- The top-ranked recommendation of Scenario A. -/
def recScenarioTop : ProfileRecommendation :=
  ((analyzeTranscript kbScenario tScenario cfgScenario).recommendations).getD 0 recDefault

/-- A weight configuration with a negative component whose sum is exactly 1. -/
def cfgNegative : AHPConfig := ⟨-(1/2), 1, 1/2⟩

/-- A knowledge base with one known course, `TI1234`. -/
def kbKnown : KnowledgeBase :=
  { metadataMap := [("TI1234", ⟨"TI1234", "Algorithms", 3⟩)]
    relevanceMap := []
    prereqMap := [] }

/-- A knowledge base with six AI competency electives. -/
def kbSat : KnowledgeBase :=
  { metadataMap := []
    relevanceMap :=
      [("E1", [⟨.AI, 1, .COMPETENCY⟩]), ("E2", [⟨.AI, 1, .COMPETENCY⟩]),
       ("E3", [⟨.AI, 1, .COMPETENCY⟩]), ("E4", [⟨.AI, 1, .COMPETENCY⟩]),
       ("E5", [⟨.AI, 1, .COMPETENCY⟩]), ("E6", [⟨.AI, 1, .COMPETENCY⟩])]
    prereqMap := [] }

/-- A grade index in which five of the six `kbSat` electives were taken. -/
def gradesSat : List (String × ℚ) :=
  [("E1", 4), ("E2", 4), ("E3", 4), ("E4", 4), ("E5", 4)]

/-- A knowledge base on which two full-precision final scores differ by
less than the rounding resolution: AI's only competency grade normalizes to
exactly 0.575, while DMS's weighted quality works out to 0.57504. -/
def kbRound : KnowledgeBase :=
  { metadataMap := []
    relevanceMap :=
      [("A1", [⟨.AI, 1, .COMPETENCY⟩]),
       ("D1", [⟨.DMS, 57504/100000, .COMPETENCY⟩]),
       ("D2", [⟨.DMS, 42496/100000, .COMPETENCY⟩])]
    prereqMap := [] }

/-- The transcript for `kbRound`: C+ (2.3) in AI's elective, A and E in the
two DMS electives. -/
def tRound : StudentTranscript :=
  { student_id := none
    student_name := none
    courses := [⟨"A1", "a", 3, "C+", 23/10⟩, ⟨"D1", "b", 3, "A", 4⟩, ⟨"D2", "c", 3, "E", 0⟩]
    gpa_raw := none }

/-- Weights putting all mass on competency quality. -/
def cfgRound : AHPConfig := ⟨0, 1, 0⟩

/-- A knowledge base giving the four profiles four distinct final scores. -/
def kbDistinct : KnowledgeBase :=
  { metadataMap := []
    relevanceMap :=
      [("A1", [⟨.AI, 1, .COMPETENCY⟩]), ("B1", [⟨.DMS, 1, .COMPETENCY⟩]),
       ("C1", [⟨.PSD, 1, .COMPETENCY⟩]), ("D1", [⟨.INFRA, 1, .COMPETENCY⟩])]
    prereqMap := [] }

/-- The transcript for `kbDistinct`: grades A, B, C, D in the four
profiles' electives. -/
def tDistinct : StudentTranscript :=
  { student_id := none
    student_name := none
    courses := [⟨"A1", "a", 3, "A", 4⟩, ⟨"B1", "b", 3, "B", 3⟩,
                ⟨"C1", "c", 3, "C", 2⟩, ⟨"D1", "d", 3, "D", 1⟩]
    gpa_raw := none }

/-- The pairwise ordering the ranked output satisfies: strictly greater
(rounded) score first, ties in the fixed profile enumeration order. -/
def recOrder (a b : ProfileRecommendation) : Prop :=
  b.score < a.score ∨ (a.score = b.score ∧ profileIdx a.profile < profileIdx b.profile)

/-- A successful association-list lookup returns a stored pair. -/
theorem alookup_mem {α : Type} {k : String} {v : α} :
    ∀ {l : List (String × α)}, alookup k l = some v → (k, v) ∈ l := by
  intro l
  induction l with
  | nil => intro h; exact absurd h (by simp [alookup])
  | cons e rest ih =>
    intro h
    obtain ⟨k', v'⟩ := e
    rw [alookup] at h
    by_cases hk : k' = k
    · rw [if_pos hk] at h
      injection h with hv
      subst hk
      subst hv
      exact List.mem_cons_self _ _
    · rw [if_neg hk] at h
      exact List.mem_cons_of_mem _ (ih h)

/-- Lookup of a key absent from the key list fails. -/
theorem alookup_eq_none {α : Type} {k : String} :
    ∀ {l : List (String × α)}, k ∉ l.map Prod.fst → alookup k l = none := by
  intro l
  induction l with
  | nil => intro _; rfl
  | cons e rest ih =>
    intro h
    obtain ⟨k', v'⟩ := e
    simp only [List.map_cons, List.mem_cons] at h
    push_neg at h
    rw [alookup, if_neg (fun he => h.1 he.symm), ih h.2]

/-- A constructed evidence record carries the metadata's code, the line's
grade letter and its mapped numeric grade. -/
theorem buildParsedCourse_fields {meta : CourseMetadata} {gl : String} {r : ParsedCourse}
    (h : buildParsedCourse meta gl = some r) :
    r.code = meta.code ∧ r.grade_letter = gl ∧ r.grade_value = gradeMap gl := by
  unfold buildParsedCourse at h
  split at h
  · injection h with hr
    subst hr
    exact ⟨rfl, rfl, rfl⟩
  · cases h

/-- Every record the line scanner emits was built, through
`buildParsedCourse`, from a metadata record found in the knowledge base. -/
theorem scanAux_mem_shape {kb : KnowledgeBase} :
    ∀ (lines seen : List String) {r : ParsedCourse}, r ∈ scanAux kb lines seen →
      ∃ raw meta gl, getCourseMetadata kb raw = some meta ∧ buildParsedCourse meta gl = some r := by
  intro lines
  induction lines with
  | nil => intro seen r h; simp [scanAux] at h
  | cons line rest ih =>
    intro seen r h
    simp only [scanAux] at h
    cases hlc : lineCode line with
    | none => simp only [hlc] at h; exact ih seen h
    | some raw =>
      simp only [hlc] at h
      cases hlg : lineGrade line with
      | none => simp only [hlg] at h; exact ih seen h
      | some gl =>
        simp only [hlg] at h
        by_cases hseen : raw ∈ seen
        · rw [if_pos hseen] at h
          exact ih seen h
        · rw [if_neg hseen] at h
          cases hmeta : getCourseMetadata kb raw with
          | none => simp only [hmeta] at h; exact ih seen h
          | some meta =>
            simp only [hmeta] at h
            cases hbuild : buildParsedCourse meta gl with
            | none => simp only [hbuild] at h; exact ih seen h
            | some course =>
              simp only [hbuild, List.mem_cons] at h
              rcases h with hr | hr
              · exact ⟨raw, meta, gl, hmeta, by rw [hbuild, hr]⟩
              · exact ih _ hr

/-- C3 counterexample: the weight triple (-0.5, 1.0, 0.5) has a negative
component, yet construction succeeds because the validator only checks the
sum — refuting the claim that a ConfigurationError is raised whenever some
component is negative. -/
theorem C3_counterexample_negative_weight_accepted :
    isOkE (checkWeightsSumToOne cfgNegative) = true ∧ cfgNegative.w_foundation < 0 := by
  have hclose :
      mathIsClose (cfgNegative.w_foundation + cfgNegative.w_competency + cfgNegative.w_density)
        1 := by
    unfold mathIsClose cfgNegative
    norm_num
  constructor
  · unfold checkWeightsSumToOne
    rw [if_pos hclose]
    rfl
  · show -(1/2 : ℚ) < 0
    norm_num

/-- C3 (amended): constructing a WeightConfiguration raises
ConfigurationError if and only if the weight sum differs from 1.0 beyond the
1e-5 relative tolerance of `math.isclose`; non-negativity of the components
is not checked.  Every triple whose sum passes the tolerance check — in
particular every non-negative triple summing to 1.0 — is accepted, so
analysis never raises ConfigurationError for it. -/
theorem C3_weight_validation_iff (c : AHPConfig) :
    checkWeightsSumToOne c = Except.ok c ↔
      mathIsClose (c.w_foundation + c.w_competency + c.w_density) 1 := by
  unfold checkWeightsSumToOne
  split
  · rename_i h
    exact ⟨fun _ => h, fun _ => rfl⟩
  · rename_i h
    constructor
    · intro he
      exact absurd he (by simp)
    · intro hc
      exact absurd hc h

/-- C7: the letter-grade scale applied during extraction is exactly A=4.0,
A-=3.7, B+=3.3, B=3.0, B-=2.7, C+=2.3, C=2.0, D=1.0, E=0.0; every token
outside the nine-entry map converts to 0.0 (total function, no error); and
every record the extractor emits carries `grade_value = gradeMap grade_letter`. -/
theorem C7_grade_scale :
    (gradeMap "A" = 4 ∧ gradeMap "A-" = 37/10 ∧ gradeMap "B+" = 33/10 ∧
     gradeMap "B" = 3 ∧ gradeMap "B-" = 27/10 ∧ gradeMap "C+" = 23/10 ∧
     gradeMap "C" = 2 ∧ gradeMap "D" = 1 ∧ gradeMap "E" = 0) ∧
    (∀ s : String, s ∉ GRADE_MAP.map Prod.fst → gradeMap s = 0) ∧
    (∀ (kb : KnowledgeBase) (lines : List String) (r : ParsedCourse),
      r ∈ scanLines kb lines → r.grade_value = gradeMap r.grade_letter) := by
  refine ⟨⟨rfl, rfl, rfl, rfl, rfl, rfl, rfl, rfl, rfl⟩, ?_, ?_⟩
  · intro s hs
    unfold gradeMap
    rw [alookup_eq_none hs]
    rfl
  · intro kb lines r hr
    obtain ⟨raw, meta, gl, _, hbuild⟩ := scanAux_mem_shape lines [] hr
    obtain ⟨_, hgl, hgv⟩ := buildParsedCourse_fields hbuild
    rw [hgv, hgl]

/-- C7 witness: the unrecognized token "F" maps to 0.0 without error. -/
theorem C7_grade_scale_witness : gradeMap "F" = 0 :=
  C7_grade_scale.2.1 "F" (by decide)

/-- C8 counterexample: on a document from which no header field could be
extracted, the student id and name are left unset, but the raw GPA is not —
it is set to the substitute value 0.0, refuting the claim that all three
absent header fields are left unset. -/
theorem C8_counterexample_gpa_defaulted :
    (parsePdfAssemble kbEmptyKB [] none none none).student_id = none ∧
    (parsePdfAssemble kbEmptyKB [] none none none).student_name = none ∧
    (parsePdfAssemble kbEmptyKB [] none none none).gpa_raw = some 0 ∧
    (parsePdfAssemble kbEmptyKB [] none none none).gpa_raw ≠ none := by
  refine ⟨rfl, rfl, rfl, ?_⟩
  intro h
  exact Option.noConfusion (show some (0 : ℚ) = none from h)

/-- C8 (amended): absent student id and student name are left unset and
present ones are carried through unchanged; the raw GPA, however, is
defaulted to 0.0 when the header pattern finds nothing (and when the matched
string does not parse), and carried through numerically when it parses. -/
theorem C8_header_fields (kb : KnowledgeBase) (lines : List String)
    (i n g : Option String) :
    (parsePdfAssemble kb lines i n g).student_id = i ∧
    (parsePdfAssemble kb lines i n g).student_name = n ∧
    (g = none → (parsePdfAssemble kb lines i n g).gpa_raw = some 0) ∧
    (∀ s v, g = some s → parsePyFloat s = some v →
      (parsePdfAssemble kb lines i n g).gpa_raw = some v) := by
  refine ⟨rfl, rfl, ?_, ?_⟩
  · intro hg
    subst hg
    rfl
  · intro s v hg hv
    subst hg
    show some (if s ≠ "" then (parsePyFloat s).getD 0 else 0) = some v
    by_cases hs : s = ""
    · subst hs
      exact Option.noConfusion (show (none : Option ℚ) = some v from hv)
    · rw [if_pos hs, hv]
      rfl

/-- C8 witness: header fields present in the document are carried through;
a GPA string "3.75" yields the rational 15/4. -/
theorem C8_header_fields_witness :
    (parsePdfAssemble kbEmptyKB [] (some "123") (some "Budi") (some "3.75")).student_id
        = some "123" ∧
    (parsePdfAssemble kbEmptyKB [] (some "123") (some "Budi") (some "3.75")).student_name
        = some "Budi" ∧
    (parsePdfAssemble kbEmptyKB [] (some "123") (some "Budi") (some "3.75")).gpa_raw
        = some (15/4) := by
  obtain ⟨h1, h2, _, h4⟩ :=
    C8_header_fields kbEmptyKB [] (some "123") (some "Budi") (some "3.75")
  refine ⟨h1, h2, h4 "3.75" (15/4) rfl ?_⟩
  have h0 : parsePyFloat "3.75" =
      some (((3 : ℕ) : ℚ) + ((75 : ℕ) : ℚ) / (10 : ℚ) ^ (2 : ℕ)) := rfl
  rw [h0]
  norm_num

/-- C10: rebuilding the knowledge base indices twice from an unchanged raw
source set produces index-equal results — the reload operation is a pure
function of the raw sources that discards and replaces the previous index
set, so a second reload over the same sources changes nothing. -/
theorem C10_reload_idempotent (s : KnowledgeBase) (raw : RawSources) :
    reloadKB (reloadKB s raw) raw = reloadKB s raw := rfl

/-- The density counting loop computes, over any key list, the number of
keys whose rules match and the number of those also present in the grade
index. -/
theorem densityStep_foldl (kb : KnowledgeBase) (profile : ProfileType)
    (ctype : CriteriaType) (grades : List (String × ℚ)) :
    ∀ (keys : List String) (a b : Nat),
      keys.foldl (densityStep kb profile ctype grades) (a, b) =
        (a + (keys.filter (fun k =>
            ((getRelevanceRules kb k).find? (ruleMatches profile ctype)).isSome)).length,
         b + (keys.filter (fun k =>
            ((getRelevanceRules kb k).find? (ruleMatches profile ctype)).isSome
              && (alookup k grades).isSome)).length) := by
  intro keys
  induction keys with
  | nil => intro a b; simp
  | cons k ks ih =>
    intro a b
    rw [List.foldl_cons]
    cases hf : (getRelevanceRules kb k).find? (ruleMatches profile ctype) with
    | none =>
      have hstep : densityStep kb profile ctype grades (a, b) k = (a, b) := by
        unfold densityStep
        rw [hf]
      rw [hstep, ih]
      simp [List.filter_cons, hf]
    | some rule =>
      have hstep : densityStep kb profile ctype grades (a, b) k =
          (a + 1, if (alookup k grades).isSome then b + 1 else b) := by
        unfold densityStep
        rw [hf]
      rw [hstep]
      by_cases ht : (alookup k grades).isSome
      · rw [if_pos ht, ih,
          List.filter_cons_of_pos (by rw [hf]; rfl),
          List.filter_cons_of_pos (by rw [hf, ht]; rfl),
          List.length_cons, List.length_cons, Prod.mk.injEq]
        constructor <;> omega
      · have ht2 : (alookup k grades).isSome = false := by
          rw [Bool.not_eq_true] at ht
          exact ht
        rw [if_neg ht, ih,
          List.filter_cons_of_pos (by rw [hf]; rfl),
          List.filter_cons_of_neg (by simp [hf, ht2]),
          List.length_cons, Prod.mk.injEq]
        constructor <;> omega

/-- Filtering the key list of an association list by a predicate on key and
looked-up value counts the same entries as filtering the list itself,
whenever the lookup function agrees with the entries pointwise. -/
theorem filter_keys_length {β : Type} (g : String → β) (q : String → β → Bool) :
    ∀ (l : List (String × β)), (∀ e ∈ l, g e.1 = e.2) →
      ((l.map Prod.fst).filter (fun k => q k (g k))).length
        = (l.filter (fun e => q e.1 e.2)).length := by
  intro l
  induction l with
  | nil => intro _; rfl
  | cons e rest ih =>
    intro h
    obtain ⟨k, v⟩ := e
    have hg : g k = v := h _ (List.mem_cons_self _ _)
    have hrest := ih (fun e he => h e (List.mem_cons_of_mem _ he))
    simp only [List.map_cons, List.filter_cons, hg]
    cases hq : q k v
    · simpa using hrest
    · simpa using hrest

/-- The taken count never exceeds the available count. -/
theorem relevantTakenCount_le (kb : KnowledgeBase) (profile : ProfileType)
    (ctype : CriteriaType) (grades : List (String × ℚ)) :
    relevantTakenCount kb profile ctype grades ≤ relevantCount kb profile ctype := by
  unfold relevantTakenCount relevantCount
  have hsplit : kb.relevanceMap.filter (fun e =>
      (e.2.find? (ruleMatches profile ctype)).isSome && (alookup e.1 grades).isSome)
      = (kb.relevanceMap.filter (fun e =>
          (e.2.find? (ruleMatches profile ctype)).isSome)).filter (fun e =>
          (alookup e.1 grades).isSome) := by
    rw [List.filter_filter]
    exact List.filter_congr (fun e _ => Bool.and_comm _ _)
  rw [hsplit]
  exact List.length_filter_le _ _

/-- C1: for every knowledge base in a reachable (dict-shaped) state, every
profile and every student grade index, the COMPETENCY density score equals
`min(taken/4, 1.0)`, where taken is the number of distinct courses the
student took that carry a relevance rule for (profile, COMPETENCY).  In
particular taking 4 relevant electives yields 1.0 and so does taking 5 or
more (see the witness). -/
theorem C1_density_saturation (kb : KnowledgeBase) (profile : ProfileType)
    (grades : List (String × ℚ)) (hwf : relevanceWF kb) :
    calcDensity kb profile CriteriaType.COMPETENCY grades =
      min ((relevantTakenCount kb profile CriteriaType.COMPETENCY grades : ℚ) / 4) 1 := by
  obtain ⟨_, hself⟩ := hwf
  unfold calcDensity
  rw [densityStep_foldl]
  have havail :
      ((getAllMappingKeys kb).filter (fun k =>
        ((getRelevanceRules kb k).find? (ruleMatches profile CriteriaType.COMPETENCY)).isSome)).length
        = relevantCount kb profile CriteriaType.COMPETENCY :=
    filter_keys_length (getRelevanceRules kb)
      (fun _ rules => (rules.find? (ruleMatches profile CriteriaType.COMPETENCY)).isSome)
      kb.relevanceMap hself
  have htaken :
      ((getAllMappingKeys kb).filter (fun k =>
        ((getRelevanceRules kb k).find? (ruleMatches profile CriteriaType.COMPETENCY)).isSome
          && (alookup k grades).isSome)).length
        = relevantTakenCount kb profile CriteriaType.COMPETENCY grades :=
    filter_keys_length (getRelevanceRules kb)
      (fun k rules => (rules.find? (ruleMatches profile CriteriaType.COMPETENCY)).isSome
        && (alookup k grades).isSome)
      kb.relevanceMap hself
  simp only [Nat.zero_add, havail, htaken]
  by_cases h0 : relevantCount kb profile CriteriaType.COMPETENCY = 0
  · rw [if_pos h0]
    have htz : relevantTakenCount kb profile CriteriaType.COMPETENCY grades = 0 :=
      Nat.le_zero.mp (h0 ▸ relevantTakenCount_le kb profile CriteriaType.COMPETENCY grades)
    rw [htz]
    norm_num
  · rw [if_neg h0]
    rw [if_neg (by decide : ¬(CriteriaType.COMPETENCY = CriteriaType.FOUNDATION))]

/-- C1 witness: with six available AI competency electives of which five
were taken, the density score saturates at exactly 1.0. -/
theorem C1_density_saturation_witness :
    relevanceWF kbSat ∧
      calcDensity kbSat ProfileType.AI CriteriaType.COMPETENCY gradesSat = 1 := by
  have hwf : relevanceWF kbSat := by
    norm_num +decide [relevanceWF, kbSat, getRelevanceRules, alookup, pyStrip, pyUpper,
      pyIsSpace]
  refine ⟨hwf, ?_⟩
  rw [C1_density_saturation kbSat ProfileType.AI gradesSat hwf]
  have h5 : relevantTakenCount kbSat ProfileType.AI CriteriaType.COMPETENCY gradesSat = 5 := by
    norm_num +decide [relevantTakenCount, kbSat, gradesSat, ruleMatches, List.find?, alookup]
  rw [h5]
  rw [min_eq_right (by norm_num)]

/-- Membership in an insertion step. -/
theorem mem_insertDesc (x a : ProfileRecommendation) :
    ∀ l : List ProfileRecommendation, a ∈ insertDesc x l ↔ a = x ∨ a ∈ l := by
  intro l
  induction l with
  | nil => simp [insertDesc]
  | cons y ys ih =>
    rw [insertDesc]
    by_cases hc : y.score ≤ x.score
    · rw [if_pos hc]
      simp [List.mem_cons]
    · rw [if_neg hc]
      simp only [List.mem_cons, ih]
      tauto

/-- The sort is a permutation at the level of membership. -/
theorem mem_sortDesc (a : ProfileRecommendation) :
    ∀ l : List ProfileRecommendation, a ∈ sortDesc l ↔ a ∈ l := by
  intro l
  induction l with
  | nil => simp [sortDesc]
  | cons x xs ih =>
    rw [sortDesc, mem_insertDesc, ih, List.mem_cons]

/-- Insertion grows the length by one. -/
theorem length_insertDesc (x : ProfileRecommendation) :
    ∀ l : List ProfileRecommendation, (insertDesc x l).length = l.length + 1 := by
  intro l
  induction l with
  | nil => rfl
  | cons y ys ih =>
    rw [insertDesc]
    by_cases hc : y.score ≤ x.score
    · rw [if_pos hc]
      rfl
    · rw [if_neg hc, List.length_cons, ih, List.length_cons]

/-- Sorting preserves the length. -/
theorem length_sortDesc :
    ∀ l : List ProfileRecommendation, (sortDesc l).length = l.length := by
  intro l
  induction l with
  | nil => rfl
  | cons x xs ih =>
    rw [sortDesc, length_insertDesc, ih, List.length_cons]

/-- A `recOrder` pair is weakly ordered by score. -/
theorem recOrder_score_le {a b : ProfileRecommendation} (h : recOrder a b) :
    b.score ≤ a.score :=
  h.elim le_of_lt (fun h2 => le_of_eq h2.1.symm)

/-- Stability of the insertion step: inserting an element that precedes (in
enumeration order) everything already sorted keeps the list `recOrder`
pairwise — a strictly larger score moves it forward, ties leave it before
its enumeration successors. -/
theorem pairwise_insertDesc (x : ProfileRecommendation) :
    ∀ l : List ProfileRecommendation, l.Pairwise recOrder →
      (∀ y ∈ l, profileIdx x.profile < profileIdx y.profile) →
      (insertDesc x l).Pairwise recOrder := by
  intro l
  induction l with
  | nil => intro _ _; exact List.pairwise_singleton _ _
  | cons y ys ih =>
    intro hl hx
    rw [List.pairwise_cons] at hl
    obtain ⟨hy, hys⟩ := hl
    rw [insertDesc]
    by_cases hc : y.score ≤ x.score
    · rw [if_pos hc]
      rw [List.pairwise_cons]
      refine ⟨?_, List.pairwise_cons.mpr ⟨hy, hys⟩⟩
      intro z hz
      rcases List.mem_cons.mp hz with hzy | hzys
      · subst hzy
        rcases lt_or_eq_of_le hc with h | h
        · exact Or.inl h
        · exact Or.inr ⟨h.symm, hx _ (List.mem_cons_self _ _)⟩
      · rcases hy z hzys with h1 | ⟨hsc, _⟩
        · exact Or.inl (lt_of_lt_of_le h1 hc)
        · rcases lt_or_eq_of_le hc with h2 | h2
          · exact Or.inl (by rw [← hsc]; exact h2)
          · exact Or.inr ⟨by rw [← h2]; exact hsc,
              hx _ (List.mem_cons_of_mem _ hzys)⟩
    · rw [if_neg hc]
      push_neg at hc
      rw [List.pairwise_cons]
      constructor
      · intro z hz
        rcases (mem_insertDesc x z ys).mp hz with hzx | hzys
        · subst hzx
          exact Or.inl hc
        · exact hy z hzys
      · exact ih hys (fun y2 hy2 => hx _ (List.mem_cons_of_mem _ hy2))

/-- Sorting a list whose profiles appear in strict enumeration order yields
a `recOrder`-pairwise list: descending scores, ties in enumeration order. -/
theorem pairwise_sortDesc :
    ∀ l : List ProfileRecommendation,
      l.Pairwise (fun a b => profileIdx a.profile < profileIdx b.profile) →
      (sortDesc l).Pairwise recOrder := by
  intro l
  induction l with
  | nil => intro _; exact List.Pairwise.nil
  | cons x xs ih =>
    intro h
    rw [List.pairwise_cons] at h
    obtain ⟨hx, hxs⟩ := h
    rw [sortDesc]
    exact pairwise_insertDesc x (sortDesc xs) (ih hxs)
      (fun y hy => hx y ((mem_sortDesc y xs).mp hy))

/-- Rank assignment only rewrites the rank field. -/
theorem mem_assignRanks :
    ∀ (n : Nat) (l : List ProfileRecommendation) (b : ProfileRecommendation),
      b ∈ assignRanks n l →
      ∃ a ∈ l, b.score = a.score ∧ b.profile = a.profile ∧ b.details = a.details := by
  intro n l
  induction l generalizing n with
  | nil => intro b h; simp [assignRanks] at h
  | cons r rest ih =>
    intro b h
    rw [assignRanks, List.mem_cons] at h
    rcases h with h | h
    · subst h
      exact ⟨r, List.mem_cons_self _ _, rfl, rfl, rfl⟩
    · obtain ⟨a, ha, h1, h2, h3⟩ := ih (n + 1) b h
      exact ⟨a, List.mem_cons_of_mem _ ha, h1, h2, h3⟩

/-- The assigned ranks are consecutive 1-based positions. -/
theorem map_rank_assignRanks :
    ∀ (n : Nat) (l : List ProfileRecommendation),
      (assignRanks n l).map (fun r => r.rank) = List.range' n l.length := by
  intro n l
  induction l generalizing n with
  | nil => rfl
  | cons r rest ih =>
    rw [assignRanks, List.map_cons, List.length_cons, List.range'_succ, ih]

/-- Rank assignment preserves the pairwise score/profile ordering. -/
theorem pairwise_assignRanks :
    ∀ (n : Nat) (l : List ProfileRecommendation), l.Pairwise recOrder →
      (assignRanks n l).Pairwise recOrder := by
  intro n l
  induction l generalizing n with
  | nil => intro _; exact List.Pairwise.nil
  | cons r rest ih =>
    intro h
    rw [List.pairwise_cons] at h
    obtain ⟨hr, hrest⟩ := h
    rw [assignRanks, List.pairwise_cons]
    constructor
    · intro b hb
      obtain ⟨a, ha, h1, h2, _⟩ := mem_assignRanks (n + 1) rest b hb
      have hra := hr a ha
      unfold recOrder at hra ⊢
      rw [h1, h2]
      exact hra
    · exact ih (n + 1) hrest

/-- The ranked output of the engine is `recOrder`-pairwise: strictly larger
rounded scores come first, equal rounded scores stay in profile enumeration
order. -/
theorem analyze_pairwise_recOrder (kb : KnowledgeBase) (t : StudentTranscript)
    (cfg : AHPConfig) :
    (analyzeTranscript kb t cfg).recommendations.Pairwise recOrder := by
  have hrecs : (analyzeTranscript kb t cfg).recommendations
      = assignRanks 1 (sortDesc (profiles.map
          (mkRecommendation kb (studentGrades t.courses) cfg))) := rfl
  rw [hrecs]
  apply pairwise_assignRanks
  apply pairwise_sortDesc
  rw [List.pairwise_map]
  have hp : List.Pairwise (fun p q : ProfileType => profileIdx p < profileIdx q) profiles := by
    norm_num [profiles, List.pairwise_cons, profileIdx]
  exact hp.imp (fun h => h)

/-- Every output recommendation's rounded score and breakdown are those the
engine computed for its own profile. -/
theorem analyze_mem_fields {kb : KnowledgeBase} {t : StudentTranscript} {cfg : AHPConfig}
    {r : ProfileRecommendation}
    (hr : r ∈ (analyzeTranscript kb t cfg).recommendations) :
    r.score = round4 (finalScoreFor kb (studentGrades t.courses) cfg r.profile) ∧
    r.details = (mkRecommendation kb (studentGrades t.courses) cfg r.profile).details := by
  have hrecs : (analyzeTranscript kb t cfg).recommendations
      = assignRanks 1 (sortDesc (profiles.map
          (mkRecommendation kb (studentGrades t.courses) cfg))) := rfl
  rw [hrecs] at hr
  obtain ⟨a, ha, hsc, hpf, hdt⟩ := mem_assignRanks _ _ _ hr
  rw [mem_sortDesc] at ha
  obtain ⟨p, _, hp⟩ := List.mem_map.mp ha
  constructor
  · rw [hsc, ← hp, hpf, ← hp]
    rfl
  · rw [hdt, ← hp, hpf, ← hp]
    rfl

/-- Half-even rounding never exceeds the value by more than one half. -/
theorem rndHalfEven_le (q : ℚ) : (rndHalfEven q : ℚ) ≤ q + 1/2 := by
  have h1 := Int.floor_le q
  have h2 := Int.lt_floor_add_one q
  unfold rndHalfEven
  split_ifs <;> push_cast <;> linarith

/-- Half-even rounding never undershoots the value by more than one half. -/
theorem le_rndHalfEven (q : ℚ) : q - 1/2 ≤ (rndHalfEven q : ℚ) := by
  have h1 := Int.floor_le q
  have h2 := Int.lt_floor_add_one q
  unfold rndHalfEven
  split_ifs <;> push_cast <;> linarith

/-- Half-even rounding is monotone. -/
theorem rndHalfEven_mono {x y : ℚ} (hxy : x ≤ y) : rndHalfEven x ≤ rndHalfEven y := by
  by_contra hlt
  push_neg at hlt
  have h1 : (rndHalfEven y : ℚ) + 1 ≤ (rndHalfEven x : ℚ) := by
    have h := Int.add_one_le_iff.mpr hlt
    exact_mod_cast h
  have h2 := rndHalfEven_le x
  have h3 := le_rndHalfEven y
  have hyx : y ≤ x := by linarith
  have hxy2 : x = y := le_antisymm hxy hyx
  rw [hxy2] at hlt
  exact lt_irrefl _ hlt

/-- Rounding to four decimals is monotone. -/
theorem round4_mono {x y : ℚ} (hxy : x ≤ y) : round4 x ≤ round4 y := by
  have h : rndHalfEven (x * 10000) ≤ rndHalfEven (y * 10000) :=
    rndHalfEven_mono (by linarith)
  unfold round4
  have h2 : ((rndHalfEven (x * 10000) : ℚ)) ≤ ((rndHalfEven (y * 10000) : ℚ)) := by
    exact_mod_cast h
  linarith

/-- A strict inequality between rounded values reflects to the full-precision
values. -/
theorem lt_of_round4_lt {x y : ℚ} (h : round4 x < round4 y) : x < y := by
  by_contra hxy
  push_neg at hxy
  exact absurd h (not_lt.mpr (round4_mono hxy))

/-- C5: for every knowledge base, transcript and weight configuration, the
output carries ranks exactly 1, 2, 3, 4 in order, and the recommendation
list is sorted by strictly descending (rounded) final score with equal
scores kept in the fixed profile enumeration order AI, DMS, PSD, INFRA
(stable sort, no secondary randomization). -/
theorem C5_rank_invariant (kb : KnowledgeBase) (t : StudentTranscript) (cfg : AHPConfig) :
    ((analyzeTranscript kb t cfg).recommendations.map (fun r => r.rank) = [1, 2, 3, 4]) ∧
    (analyzeTranscript kb t cfg).recommendations.Pairwise recOrder := by
  constructor
  · have hrecs : (analyzeTranscript kb t cfg).recommendations
        = assignRanks 1 (sortDesc (profiles.map
            (mkRecommendation kb (studentGrades t.courses) cfg))) := rfl
    rw [hrecs, map_rank_assignRanks, length_sortDesc, List.length_map]
    rfl
  · exact analyze_pairwise_recOrder kb t cfg

/-- C9 counterexample: with all weight on competency quality, AI's full
precision final score is 0.575 and DMS's is 0.57504; both round to 0.575 at
the output boundary, the stable sort keeps AI first, and AI receives rank 1
although DMS's full-precision score is strictly larger — the ranking
compares rounded scores, refuting the claim that it always equals the
full-precision ranking. -/
theorem C9_counterexample_rounded_tie :
    ((analyzeTranscript kbRound tRound cfgRound).recommendations.map
        (fun r => (r.profile, r.rank))
      = [(ProfileType.AI, 1), (ProfileType.DMS, 2),
         (ProfileType.PSD, 3), (ProfileType.INFRA, 4)]) ∧
    finalScoreFor kbRound (studentGrades tRound.courses) cfgRound ProfileType.AI
      < finalScoreFor kbRound (studentGrades tRound.courses) cfgRound ProfileType.DMS := by
  constructor
  · norm_num +decide [analyzeTranscript, kbRound, tRound, cfgRound, studentGrades,
      mkRecommendation, finalScoreFor, calcWeightedQuality, calcDensity, densityStep,
      getAllMappingKeys, getRelevanceRules, alookup, dinsert, ruleMatches, List.find?,
      pyStrip, pyUpper, pyIsSpace, profiles, sortDesc, insertDesc, assignRanks, round4,
      rndHalfEven, generateExplanation, profileValue]
  · norm_num +decide [kbRound, tRound, cfgRound, studentGrades, finalScoreFor,
      calcWeightedQuality, calcDensity, densityStep, getAllMappingKeys, getRelevanceRules,
      alookup, dinsert, ruleMatches, List.find?, pyStrip, pyUpper, pyIsSpace]

/-- C9 (amended): rounding to 4 decimal places is applied to the emitted
numeric fields, and the ranking compares these rounded final scores; since
rounding is monotone, whenever the four rounded final scores are pairwise
distinct the output order is strictly descending in the full-precision
scores, i.e. it coincides with the full-precision ranking.  Full-precision
differences below the rounding resolution, however, collapse to a tie
broken by the fixed enumeration order (see the counterexample). -/
theorem C9_rounded_ranking (kb : KnowledgeBase) (t : StudentTranscript) (cfg : AHPConfig)
    (hdist : ∀ p q : ProfileType, p ≠ q →
      round4 (finalScoreFor kb (studentGrades t.courses) cfg p)
        ≠ round4 (finalScoreFor kb (studentGrades t.courses) cfg q)) :
    (analyzeTranscript kb t cfg).recommendations.Pairwise
      (fun a b => finalScoreFor kb (studentGrades t.courses) cfg b.profile
        < finalScoreFor kb (studentGrades t.courses) cfg a.profile) := by
  have hpr := analyze_pairwise_recOrder kb t cfg
  refine hpr.imp_of_mem ?_
  intro a b ha hb hab
  obtain ⟨hascore, _⟩ := analyze_mem_fields ha
  obtain ⟨hbscore, _⟩ := analyze_mem_fields hb
  rcases hab with h | ⟨heq, hpidx⟩
  · rw [hascore, hbscore] at h
    exact lt_of_round4_lt h
  · have hne : a.profile ≠ b.profile := by
      intro hp
      rw [hp] at hpidx
      exact lt_irrefl _ hpidx
    rw [hascore, hbscore] at heq
    exact absurd heq (hdist a.profile b.profile hne)

/-- C9 witness: on a knowledge base giving the four profiles the distinct
rounded finals 1, 0.75, 0.5, 0.25, the output order is strictly descending
in the full-precision final scores. -/
theorem C9_rounded_ranking_witness :
    (analyzeTranscript kbDistinct tDistinct cfgRound).recommendations.Pairwise
      (fun a b => finalScoreFor kbDistinct (studentGrades tDistinct.courses) cfgRound b.profile
        < finalScoreFor kbDistinct (studentGrades tDistinct.courses) cfgRound a.profile) := by
  apply C9_rounded_ranking kbDistinct tDistinct cfgRound
  have hAI : round4 (finalScoreFor kbDistinct (studentGrades tDistinct.courses) cfgRound
      ProfileType.AI) = 1 := by
    norm_num +decide [kbDistinct, tDistinct, cfgRound, studentGrades, finalScoreFor,
      calcWeightedQuality, calcDensity, densityStep, getAllMappingKeys, getRelevanceRules,
      alookup, dinsert, ruleMatches, List.find?, pyStrip, pyUpper, pyIsSpace, round4,
      rndHalfEven]
  have hDMS : round4 (finalScoreFor kbDistinct (studentGrades tDistinct.courses) cfgRound
      ProfileType.DMS) = 3/4 := by
    norm_num +decide [kbDistinct, tDistinct, cfgRound, studentGrades, finalScoreFor,
      calcWeightedQuality, calcDensity, densityStep, getAllMappingKeys, getRelevanceRules,
      alookup, dinsert, ruleMatches, List.find?, pyStrip, pyUpper, pyIsSpace, round4,
      rndHalfEven]
  have hPSD : round4 (finalScoreFor kbDistinct (studentGrades tDistinct.courses) cfgRound
      ProfileType.PSD) = 1/2 := by
    norm_num +decide [kbDistinct, tDistinct, cfgRound, studentGrades, finalScoreFor,
      calcWeightedQuality, calcDensity, densityStep, getAllMappingKeys, getRelevanceRules,
      alookup, dinsert, ruleMatches, List.find?, pyStrip, pyUpper, pyIsSpace, round4,
      rndHalfEven]
  have hINFRA : round4 (finalScoreFor kbDistinct (studentGrades tDistinct.courses) cfgRound
      ProfileType.INFRA) = 1/4 := by
    norm_num +decide [kbDistinct, tDistinct, cfgRound, studentGrades, finalScoreFor,
      calcWeightedQuality, calcDensity, densityStep, getAllMappingKeys, getRelevanceRules,
      alookup, dinsert, ruleMatches, List.find?, pyStrip, pyUpper, pyIsSpace, round4,
      rndHalfEven]
  intro p q hpq
  cases p <;> cases q <;>
    simp only [hAI, hDMS, hPSD, hINFRA] <;>
    first
      | exact absurd rfl hpq
      | norm_num

/-- C2: every emitted final score is the rounding of
`foundationQuality*wF + competencyQuality*wC + competencyDensity*wD` — the
foundation density never enters the formula — and on Scenario A (one
evidence record TI6043 with numeric grade 4.0, a single AI/COMPETENCY rule
of weight 1.0, weights {F:0.2, C:0.5, D:0.3}) the AI profile gets
competencyQuality 1.0, competencyDensity 0.25, foundationQuality 0.0 and
finalScore exactly 0.575 = 23/40, ranking first. -/
theorem C2_final_score_formula :
    (∀ (kb : KnowledgeBase) (t : StudentTranscript) (cfg : AHPConfig)
        (r : ProfileRecommendation), r ∈ (analyzeTranscript kb t cfg).recommendations →
      r.details.final_ahp_score = round4 (
        calcWeightedQuality kb r.profile CriteriaType.FOUNDATION (studentGrades t.courses)
            * cfg.w_foundation
          + calcWeightedQuality kb r.profile CriteriaType.COMPETENCY (studentGrades t.courses)
            * cfg.w_competency
          + calcDensity kb r.profile CriteriaType.COMPETENCY (studentGrades t.courses)
            * cfg.w_density)) ∧
    ((analyzeTranscript kbScenario tScenario cfgScenario).recommendations.map
        (fun r => (r.profile, r.rank, r.score))
      = [(ProfileType.AI, 1, 23/40), (ProfileType.DMS, 2, 0),
         (ProfileType.PSD, 3, 0), (ProfileType.INFRA, 4, 0)]) ∧
    ((analyzeTranscript kbScenario tScenario cfgScenario).recommendations.map
        (fun r => r.details)).head?
      = some ⟨0, 1, 1/4, 23/40⟩ := by
  refine ⟨?_, ?_, ?_⟩
  · intro kb t cfg r hr
    rw [(analyze_mem_fields hr).2]
    rfl
  · norm_num +decide [analyzeTranscript, kbScenario, tScenario, cfgScenario, studentGrades,
      mkRecommendation, finalScoreFor, calcWeightedQuality, calcDensity, densityStep,
      getAllMappingKeys, getRelevanceRules, alookup, dinsert, ruleMatches, List.find?,
      pyStrip, pyUpper, pyIsSpace, profiles, sortDesc, insertDesc, assignRanks, round4,
      rndHalfEven, generateExplanation, profileValue]
  · norm_num +decide [analyzeTranscript, kbScenario, tScenario, cfgScenario, studentGrades,
      mkRecommendation, finalScoreFor, calcWeightedQuality, calcDensity, densityStep,
      getAllMappingKeys, getRelevanceRules, alookup, dinsert, ruleMatches, List.find?,
      pyStrip, pyUpper, pyIsSpace, profiles, sortDesc, insertDesc, assignRanks, round4,
      rndHalfEven, generateExplanation, profileValue]

/-- C2 witness: the formula conjunct applied to Scenario A's top
recommendation. -/
theorem C2_final_score_formula_witness :
    (⟨ProfileType.AI, 1, 23/40, ⟨0, 1, 1/4, 23/40⟩,
        "Strong Potential. Good grades in the few AI courses taken, but low exposure."⟩ :
      ProfileRecommendation).details.final_ahp_score
      = round4 (
        calcWeightedQuality kbScenario ProfileType.AI CriteriaType.FOUNDATION
            (studentGrades tScenario.courses) * cfgScenario.w_foundation
          + calcWeightedQuality kbScenario ProfileType.AI CriteriaType.COMPETENCY
            (studentGrades tScenario.courses) * cfgScenario.w_competency
          + calcDensity kbScenario ProfileType.AI CriteriaType.COMPETENCY
            (studentGrades tScenario.courses) * cfgScenario.w_density) := by
  apply C2_final_score_formula.1 kbScenario tScenario cfgScenario
  norm_num +decide [analyzeTranscript, kbScenario, tScenario, cfgScenario, studentGrades,
    mkRecommendation, finalScoreFor, calcWeightedQuality, calcDensity, densityStep,
    getAllMappingKeys, getRelevanceRules, alookup, dinsert, ruleMatches, List.find?,
    pyStrip, pyUpper, pyIsSpace, profiles, sortDesc, insertDesc, assignRanks, round4,
    rndHalfEven, generateExplanation, profileValue]

/-- An accepted line decomposes into its grade token, its metadata record
and the constructed course. -/
theorem lineEvidence_some_elim {kb : KnowledgeBase} {line raw : String} {r : ParsedCourse}
    (hlc : lineCode line = some raw) (hlev : lineEvidence kb line = some r) :
    ∃ gl meta, lineGrade line = some gl ∧ getCourseMetadata kb raw = some meta ∧
      buildParsedCourse meta gl = some r := by
  unfold lineEvidence at hlev
  simp only [hlc] at hlev
  cases hlg : lineGrade line with
  | none => simp only [hlg] at hlev; cases hlev
  | some gl =>
    simp only [hlg] at hlev
    cases hmeta : getCourseMetadata kb raw with
    | none => simp only [hmeta] at hlev; cases hlev
    | some meta =>
      simp only [hmeta] at hlev
      exact ⟨gl, meta, rfl, rfl, hlev⟩

/-- A line without a course code contributes no candidate. -/
theorem candidates_cons_of_none_code {kb : KnowledgeBase} {line : String}
    {rest : List String} (hlc : lineCode line = none) :
    candidates kb (line :: rest) = candidates kb rest := by
  unfold candidates
  rw [List.filterMap_cons]
  simp [hlc]

/-- A line yielding no evidence contributes no candidate. -/
theorem candidates_cons_of_none_ev {kb : KnowledgeBase} {line raw : String}
    {rest : List String} (hlc : lineCode line = some raw)
    (hlev : lineEvidence kb line = none) :
    candidates kb (line :: rest) = candidates kb rest := by
  unfold candidates
  rw [List.filterMap_cons]
  simp [hlc, hlev]

/-- An accepted line contributes its code/evidence pair as a candidate. -/
theorem candidates_cons_of_some {kb : KnowledgeBase} {line raw : String}
    {rest : List String} {r : ParsedCourse} (hlc : lineCode line = some raw)
    (hlev : lineEvidence kb line = some r) :
    candidates kb (line :: rest) = (raw, r) :: candidates kb rest := by
  unfold candidates
  rw [List.filterMap_cons]
  simp [hlc, hlev]

/-- The line scanner equals per-line candidate extraction followed by
first-occurrence-wins de-duplication on the raw course code, for any seen
set. -/
theorem scanAux_eq_dedup (kb : KnowledgeBase) :
    ∀ (lines seen : List String),
      scanAux kb lines seen =
        (dedupFirst ((candidates kb lines).filter (notSeen seen))).map Prod.snd := by
  intro lines
  induction lines with
  | nil => intro seen; simp [scanAux, candidates, dedupFirst]
  | cons line rest ih =>
    intro seen
    cases hlc : lineCode line with
    | none =>
      rw [candidates_cons_of_none_code hlc]
      simp only [scanAux, hlc]
      exact ih seen
    | some raw =>
      cases hlev : lineEvidence kb line with
      | none =>
        rw [candidates_cons_of_none_ev hlc hlev]
        unfold lineEvidence at hlev
        simp only [hlc] at hlev
        cases hlg : lineGrade line with
        | none =>
          simp only [scanAux, hlc, hlg]
          exact ih seen
        | some gl =>
          simp only [hlg] at hlev
          by_cases hseen : raw ∈ seen
          · simp only [scanAux, hlc, hlg, if_pos hseen]
            exact ih seen
          · cases hmeta : getCourseMetadata kb raw with
            | none =>
              simp only [scanAux, hlc, hlg, if_neg hseen, hmeta]
              exact ih seen
            | some meta =>
              simp only [hmeta] at hlev
              simp only [scanAux, hlc, hlg, if_neg hseen, hmeta, hlev]
              exact ih seen
      | some r =>
        obtain ⟨gl, meta, hlg, hmeta, hbuild⟩ := lineEvidence_some_elim hlc hlev
        rw [candidates_cons_of_some hlc hlev]
        by_cases hseen : raw ∈ seen
        · simp only [scanAux, hlc, hlg, if_pos hseen]
          rw [List.filter_cons_of_neg (by simp [notSeen, hseen])]
          exact ih seen
        · simp only [scanAux, hlc, hlg, if_neg hseen, hmeta, hbuild]
          rw [List.filter_cons_of_pos (by simp [notSeen, hseen])]
          simp only [dedupFirst, List.map_cons]
          congr 1
          have hff : List.filter (fun e2 => decide (e2.1 ≠ (raw, r).1))
                ((candidates kb rest).filter (notSeen seen))
              = (candidates kb rest).filter (notSeen (raw :: seen)) := by
            rw [List.filter_filter]
            apply List.filter_congr
            intro a _
            by_cases h1 : a.1 = raw <;> by_cases h2 : a.1 ∈ seen <;>
              simp [notSeen, h1, h2]
          rw [hff]
          exact ih (raw :: seen)

/-- The first line of `kbKnown`'s duplicate pair bears code TI1234. -/
theorem lineCodeA : lineCode "TI1234 Algorithms A" = some "TI1234" := by decide

/-- The first line of the duplicate pair bears grade token A. -/
theorem lineGradeA : lineGrade "TI1234 Algorithms A" = some "A" := by decide

/-- The second line of the duplicate pair bears code TI1234 as well. -/
theorem lineCodeB : lineCode "TI1234 Algorithms B" = some "TI1234" := by decide

/-- The second line of the duplicate pair bears grade token B. -/
theorem lineGradeB : lineGrade "TI1234 Algorithms B" = some "B" := by decide

/-- `kbKnown` resolves TI1234. -/
theorem metaTI1234 : getCourseMetadata kbKnown "TI1234"
    = some ⟨"TI1234", "Algorithms", 3⟩ := by decide

/-- Constructing the evidence record for TI1234 with grade A succeeds. -/
theorem buildTI1234A : buildParsedCourse ⟨"TI1234", "Algorithms", 3⟩ "A"
    = some ⟨"TI1234", "Algorithms", 3, "A", 4⟩ := by
  unfold buildParsedCourse
  rw [if_pos ⟨by norm_num, by norm_num,
    by norm_num [gradeMap, GRADE_MAP, alookup],
    by norm_num [gradeMap, GRADE_MAP, alookup]⟩]
  simp [gradeMap, GRADE_MAP, alookup]

/-- Scanning the single known line yields its single record. -/
theorem scanKnownA : scanLines kbKnown ["TI1234 Algorithms A"]
    = [⟨"TI1234", "Algorithms", 3, "A", 4⟩] := by
  simp [scanLines, scanAux, lineCodeA, lineGradeA, metaTI1234, buildTI1234A]

/-- C6: extraction equals per-line evidence extraction followed by
first-occurrence-wins de-duplication on the course code — so any two lines
bearing the same code yield exactly one EvidenceRecord, bound to the first
accepted occurrence's grade.  Concretely, two otherwise valid lines for
TI1234 graded A then B yield the single record with grade A. -/
theorem C6_first_occurrence_wins :
    (∀ (kb : KnowledgeBase) (lines : List String),
      scanLines kb lines = (dedupFirst (candidates kb lines)).map Prod.snd) ∧
    scanLines kbKnown ["TI1234 Algorithms A", "TI1234 Algorithms B"]
      = [⟨"TI1234", "Algorithms", 3, "A", 4⟩] := by
  constructor
  · intro kb lines
    unfold scanLines
    rw [scanAux_eq_dedup]
    have hfilter : (candidates kb lines).filter (notSeen []) = candidates kb lines := by
      apply List.filter_eq_self.mpr
      intro a _
      simp [notSeen]
    rw [hfilter]
  · simp [scanLines, scanAux, lineCodeA, lineGradeA, lineCodeB, lineGradeB, metaTI1234,
      buildTI1234A]

/-- C4 counterexample: the streamlit extractor emits an EvidenceRecord for
the code EL9999 although it is absent from the metadata index — the record
is built with the placeholder name and the document-sourced credit count,
refuting the claim that unknown codes never yield records. -/
theorem C4_counterexample_streamlit_unknown_emitted :
    ((extractCourses kbEmptyKB [("EL9999", "3", "A")]).map (fun r => r.code)
      = ["EL9999"]) ∧
    getCourseMetadata kbEmptyKB "EL9999" = none := by
  constructor
  · have h1 : getCourseMetadata kbEmptyKB (pyUpper (pyStrip "EL9999")) = none := by decide
    have h2 : parseNatDigits "3" = some 3 := by decide
    have hstep : extractCoursesStep kbEmptyKB ("EL9999", "3", "A")
        = some ⟨pyUpper (pyStrip "EL9999"), "Unknown Course (YAML Missing)", 3, "A",
            gradeMap "A"⟩ := by
      unfold extractCoursesStep
      simp only [h1, h2]
      rw [if_pos ⟨by norm_num, by norm_num,
        by norm_num [gradeMap, GRADE_MAP, alookup],
        by norm_num [gradeMap, GRADE_MAP, alookup]⟩]
      rfl
    simp [extractCourses, extractCoursesAux, hstep]
    decide
  · decide

/-- C4 (amended): the line-scanning extractor of the FastAPI backend never
emits an EvidenceRecord whose code is absent from the metadata index — for
every knowledge base whose metadata index is dict-shaped (each stored record
retrievable by its own code), every line list and every absent code, no
emitted record bears that code.  The streamlit extractor does not share this
property (see the counterexample). -/
theorem C4_unknown_codes_skipped (kb : KnowledgeBase) (lines : List String)
    (code : String) (r : ParsedCourse) (hwf : metadataWF kb)
    (habs : getCourseMetadata kb code = none) (hr : r ∈ scanLines kb lines) :
    r.code ≠ code := by
  obtain ⟨raw, meta, gl, hmeta, hbuild⟩ := scanAux_mem_shape lines [] hr
  obtain ⟨hcode, _, _⟩ := buildParsedCourse_fields hbuild
  have hmem : (pyStrip (pyUpper raw), meta) ∈ kb.metadataMap := alookup_mem hmeta
  have hself : getCourseMetadata kb meta.code = some meta := hwf _ hmem
  intro hrc
  rw [hcode] at hrc
  rw [hrc, habs] at hself
  cases hself

/-- C4 witness: the record extracted from the known line TI1234 does not
carry the absent code MH9999. -/
theorem C4_unknown_codes_skipped_witness :
    (⟨"TI1234", "Algorithms", 3, "A", 4⟩ : ParsedCourse).code ≠ "MH9999" := by
  apply C4_unknown_codes_skipped kbKnown ["TI1234 Algorithms A"] "MH9999"
  · decide
  · decide
  · rw [scanKnownA]
    exact List.mem_cons_self _ _

end Profiler
